import Mathlib

/-!
Verification of the Leap cube-reorientation task (`mjpc/tasks/leap/leap.cc`):
shallow embedding of the residual evaluator, the transition state machine,
the goal samplers, and the noise/latency observation pipeline, together with
proofs of the specified properties.

Floating-point doubles are embedded as exact rationals where the source code
is purely arithmetic (latency buffer, velocity estimation, noise clamping,
discrete sampling) and as real numbers where the source uses transcendental
functions (residuals, quaternion angles, continuous sampling).
-/

namespace LeapSpec

/-! ## Latency buffer (`Leap::ModifyState`, lines 380-481)

The buffer `stored_states_` is a FIFO of full state snapshots.  Each call
first trims the front while the size exceeds `lag_steps`, then pops the
front as output if the buffer holds at least `lag_steps` entries and
`lag_steps > 0` (otherwise the fresh state is the output), and finally
pushes the fresh state when `lag_steps > 0`. -/

/-- `while (stored_states_.size() > lag_steps) erase(begin)` : drop entries
from the front while the buffer is longer than `L`. -/
def lagTrim {α : Type} (L : ℕ) : List α → List α
  | [] => []
  | x :: xs => if (x :: xs).length > L then lagTrim L xs else x :: xs

/-- One `ModifyState` pass through the latency queue: trim, then pop-or-pass
the output, then conditionally enqueue the fresh state.  Returns
(output written back to the engine, new buffer contents). -/
def lagStep {α : Type} (L : ℕ) (buf : List α) (fresh : α) : α × List α :=
  let buf1 := lagTrim L buf
  let out := if buf1.length ≥ L ∧ 0 < L then buf1.headD fresh else fresh
  let buf2 := if buf1.length ≥ L ∧ 0 < L then buf1.drop 1 else buf1
  let buf3 := if 0 < L then buf2 ++ [fresh] else buf2
  (out, buf3)

/-- Iterate `lagStep` over a sequence of fresh inputs, collecting outputs. -/
def lagRun {α : Type} (L : ℕ) (buf : List α) : List α → List α × List α
  | [] => ([], buf)
  | x :: xs =>
    let p := lagStep L buf x
    let q := lagRun L p.2 xs
    (p.1 :: q.1, q.2)

/-! ## Velocity estimation (`Leap::ModifyState`, lines 426-461)

State layout of `s`/`last_state_` (45 entries): indices 0-2 cube position,
3-6 cube quaternion, 7-22 the 16 joint positions, 23-28 cube linear+angular
velocity, 29-44 the 16 joint velocities.  `ds` has 22 entries (6 cube + 16
joint velocity components). -/

/-- The quaternion-difference angular velocity formula (lines 436-445),
without the EMA weight. -/
def omegaFD (dt : ℚ) (q qlast : Fin 4 → ℚ) : Fin 3 → ℚ :=
  ![(2 / dt) * (q 1 * qlast 0 - q 0 * qlast 1 - q 3 * qlast 2 + q 2 * qlast 3),
    (2 / dt) * (q 2 * qlast 0 + q 3 * qlast 1 - q 0 * qlast 2 - q 1 * qlast 3),
    (2 / dt) * (q 3 * qlast 0 - q 2 * qlast 1 + q 1 * qlast 2 - q 0 * qlast 3)]

/-- The raw (un-weighted) backward finite-difference / quaternion-difference
velocity at one index of `ds`. -/
def rawFD (dt : ℚ) (lastState : Fin 45 → ℚ) (pos_cube : Fin 3 → ℚ)
    (quat_cube : Fin 4 → ℚ) (s : Fin 45 → ℚ) (i : Fin 22) : ℚ :=
  if h3 : (i : ℕ) < 3 then
    (pos_cube ⟨i, h3⟩ - lastState ⟨i, by omega⟩) / dt
  else if h6 : (i : ℕ) < 6 then
    omegaFD dt quat_cube (fun j => lastState ⟨3 + j, by omega⟩) ⟨(i : ℕ) - 3, by omega⟩
  else
    (s ⟨(i : ℕ) + 1, by omega⟩ - lastState ⟨(i : ℕ) + 1, by omega⟩) / dt

/-- The `ds` vector after the guarded finite-difference block (lines 428-457):
all zeros on the first call or when `dt < 1e-6`, otherwise the raw estimates
pre-multiplied by `alpha` exactly as in the source loops. -/
def dsRaw (first : Bool) (dt alpha : ℚ) (lastState : Fin 45 → ℚ)
    (pos_cube : Fin 3 → ℚ) (quat_cube : Fin 4 → ℚ) (s : Fin 45 → ℚ) :
    Fin 22 → ℚ :=
  if first = true ∨ dt < 1 / 1000000 then fun _ => 0
  else fun i => alpha * rawFD dt lastState pos_cube quat_cube s i

/-- The emitted velocity estimate: `ds` plus the unconditional
`mju_addToScl(ds, last_state_ + 23, 1 - alpha, 22)` of line 461.  `t` is the
current time, `lastTime` the stored `last_time_`. -/
def velEmit (first : Bool) (lastTime t alpha : ℚ) (lastState : Fin 45 → ℚ)
    (pos_cube : Fin 3 → ℚ) (quat_cube : Fin 4 → ℚ) (s : Fin 45 → ℚ)
    (i : Fin 22) : ℚ :=
  dsRaw first (t - lastTime) alpha lastState pos_cube quat_cube s i +
    (1 - alpha) * lastState ⟨23 + (i : ℕ), by omega⟩

/-- Modelled from the spec: the initial contents of `last_state_` (declared
in `mjpc/tasks/leap/leap.h`, which is not part of the provided source).  The
spec states `filtered[0] = 0 (first call, no division)`, which corresponds
to a zero-initialized stored state. -/
def initLastState : Fin 45 → ℚ := fun _ => 0

/-! ## Noise random walks (`Leap::ModifyState`, lines 388-423) -/

/-- The per-component clamp applied after each random-walk update
(lines 395-401 and 415-421). -/
def clamp3 (m : ℚ) (v : Fin 3 → ℚ) : Fin 3 → ℚ := fun i =>
  if v i > m then m else if v i < -m then -m else v i

/-- One random-walk update: `mju_addTo3(noise, d)` followed by the clamp. -/
def noiseWalkStep (m : ℚ) (n d : Fin 3 → ℚ) : Fin 3 → ℚ :=
  clamp3 m (fun i => n i + d i)

/-- Iterated random walk over a sequence of increments (one per pipeline
call).  For the position walk each increment is bias plus Gaussian draw;
for the orientation walk it is the Gaussian draw alone. -/
def noiseWalk (m : ℚ) (n : Fin 3 → ℚ) : List (Fin 3 → ℚ) → Fin 3 → ℚ
  | [] => n
  | d :: ds => noiseWalk m (noiseWalkStep m n d) ds

/-! ## Discrete (axis-aligned) goal resampling (`TransitionLocked`,
lines 240-248)

`rand1`/`rand2` start at the stored pair and are redrawn while both equal
the stored pair.  The draws are modelled as an explicit list of pairs; the
loop returns `none` if the list is exhausted before acceptance. -/

/-- The rejection loop of lines 241-246 over an explicit draw sequence. -/
def discreteSampleLoop (old1 old2 : ℤ) : List (ℤ × ℤ) → Option (ℤ × ℤ)
  | [] => none
  | d :: rest =>
    if d.1 = old1 ∧ d.2 = old2 then discreteSampleLoop old1 old2 rest
    else some d

/-! ## Quaternions and MuJoCo utilities

MuJoCo stores quaternions as `(w, x, y, z)`.  The library routines
`mju_negQuat`, `mju_mulQuat`, `mju_normalize4`, `mju_subQuat` and
`mju_quat2Vel` are external dependencies (the physics engine is out of
scope per the spec); they are embedded here with their standard semantics,
with `mjMINVAL = 1e-15`. -/

open scoped Classical

/-- A quaternion in MuJoCo's scalar-first convention. -/
structure Quat where
  w : ℝ
  x : ℝ
  y : ℝ
  z : ℝ

/-- Squared Euclidean norm of a quaternion. -/
def Quat.normSq (q : Quat) : ℝ := q.w ^ 2 + q.x ^ 2 + q.y ^ 2 + q.z ^ 2

/-- `mju_negQuat`: quaternion conjugate. -/
def mju_negQuat (q : Quat) : Quat := ⟨q.w, -q.x, -q.y, -q.z⟩

/-- `mju_mulQuat`: Hamilton product. -/
def mju_mulQuat (a b : Quat) : Quat :=
  ⟨a.w * b.w - a.x * b.x - a.y * b.y - a.z * b.z,
   a.w * b.x + a.x * b.w + a.y * b.z - a.z * b.y,
   a.w * b.y - a.x * b.z + a.y * b.w + a.z * b.x,
   a.w * b.z + a.x * b.y - a.y * b.x + a.z * b.w⟩

/-- `mju_normalize4`: defaults to the identity quaternion when the norm is
below `mjMINVAL`, divides by the norm when it differs from 1 by more than
`mjMINVAL`, and otherwise leaves the vector untouched. -/
noncomputable def mju_normalize4 (q : Quat) : Quat :=
  if Real.sqrt q.normSq < 1e-15 then ⟨1, 0, 0, 0⟩
  else if |Real.sqrt q.normSq - 1| > 1e-15 then
    ⟨q.w / Real.sqrt q.normSq, q.x / Real.sqrt q.normSq,
     q.y / Real.sqrt q.normSq, q.z / Real.sqrt q.normSq⟩
  else q

/-- The shortest-path sign correction of lines 145-150 (and 316-321):
negate the quaternion when its scalar part is negative. -/
noncomputable def quatFlip (q : Quat) : Quat :=
  if q.w < 0 then ⟨-q.w, -q.x, -q.y, -q.z⟩ else q

/-- `2 * acos(w) * 180 / pi`, the rotation angle in degrees (lines 151, 322). -/
noncomputable def angleDeg (q : Quat) : ℝ :=
  2 * Real.arccos q.w * 180 / Real.pi

/-! ## Transition state machine (`Leap::TransitionLocked`, lines 120-231)

Wall-clock readings (`std::chrono::steady_clock::now()`) are modelled by a
real-valued `now` input; the printing statements have no modelled effect. -/

/-- Lines 128-138: an all-zero goal quaternion is replaced by the identity. -/
noncomputable def goalZeroFix (g : Quat) : Quat :=
  if g.w = 0 ∧ g.x = 0 ∧ g.y = 0 ∧ g.z = 0 then ⟨1, 0, 0, 0⟩ else g

/-- Lines 140-151: the angular error in degrees between the cube orientation
and the (zero-fixed) goal: conjugate-multiply, normalize, sign-flip, then
`2*acos(w)*180/pi`. -/
noncomputable def transAngle (cube goal : Quat) : ℝ :=
  angleDeg (quatFlip (mju_normalize4
    (mju_mulQuat cube (mju_negQuat (goalZeroFix goal)))))

/-- Line 155: success threshold in degrees. -/
noncomputable def angleThresh (axis_aligned : Bool) : ℝ :=
  if axis_aligned then 11.4592 else 22.9183

/-- Lines 157-165: the success check.  Returns the updated
`(rotation_count_, best_rotation_count_, change_goal)`. -/
noncomputable def successStep (axis_aligned : Bool) (angle : ℝ)
    (rc best : ℤ) : ℤ × ℤ × Bool :=
  if angle < angleThresh axis_aligned then
    (rc + 1, if rc + 1 > best then rc + 1 else best, true)
  else (rc, best, false)

/-- One entry of `data->contact`: the two geom ids. -/
structure Contact where
  geom1 : ℤ
  geom2 : ℤ

/-- Lines 171-179: scan the contact list for a cube-floor pairing. -/
def onFloor (contacts : List Contact) (cube floor : ℤ) : Bool :=
  contacts.any fun g =>
    (g.geom1 == cube && g.geom2 == floor) || (g.geom2 == cube && g.geom1 == floor)

/-- The persistent counters and timestamps of the transition state machine. -/
structure TransSt where
  rotation_count : ℤ
  best_rotation_count : ℤ
  time_of_last_reset : ℝ
  time_of_last_rotation : ℝ

/-- The ambient inputs read by one `TransitionLocked` call. -/
structure TransIn where
  cube_orientation : Quat
  goal_orientation : Quat
  axis_aligned : Bool
  contacts : List Contact
  cube_geom : ℤ
  floor_geom : ℤ
  /-- `mj_name2id(model, mjOBJ_BODY, "cube")`; `-1` when unresolved. -/
  cube_body : ℤ
  /-- `model->jnt_qposadr[model->body_jntadr[cube_body]]`. -/
  jnt_qposadr : ℕ
  /-- `model->jnt_dofadr[model->body_jntadr[cube_body]]`. -/
  jnt_dofadr : ℕ
  key_qpos : ℕ → ℝ
  now : ℝ

/-- The observable outcome of the deterministic part of one
`TransitionLocked` call (everything up to and including line 231, before
goal sampling). -/
structure TransOut where
  st : TransSt
  qpos : ℕ → ℝ
  qvel : ℕ → ℝ
  change_goal : Bool
  goal_fixed : Quat
  angle : ℝ

/-- Lines 183-189: copy the cube free joint's 7 keyframe coordinates into
`qpos` and zero its 6 velocity coordinates, provided the body resolved. -/
def resetCubePose (inp : TransIn) (qpos qvel : ℕ → ℝ) : (ℕ → ℝ) × (ℕ → ℝ) :=
  if inp.cube_body = -1 then (qpos, qvel)
  else
    (fun i => if inp.jnt_qposadr ≤ i ∧ i < inp.jnt_qposadr + 7 then inp.key_qpos i else qpos i,
     fun i => if inp.jnt_dofadr ≤ i ∧ i < inp.jnt_dofadr + 6 then 0 else qvel i)

/-- The deterministic core of `Leap::TransitionLocked` (lines 120-231):
goal zero-fix, angular error, success check, drop detection, cube reset on
drop, drop/timeout counter reset, and the goal-change decision. -/
noncomputable def transitionCore (st : TransSt) (qpos qvel : ℕ → ℝ)
    (inp : TransIn) : TransOut :=
  let goalF := goalZeroFix inp.goal_orientation
  let angle := transAngle inp.cube_orientation inp.goal_orientation
  let succ := successStep inp.axis_aligned angle st.rotation_count st.best_rotation_count
  let dropped := onFloor inp.contacts inp.cube_geom inp.floor_geom
  let pose := if dropped then resetCubePose inp qpos qvel else (qpos, qvel)
  let time_since_last_rotation := inp.now - st.time_of_last_rotation
  let reset := dropped || decide (time_since_last_rotation > 80)
  let rc := if reset then 0 else succ.1
  let tolr := if reset then inp.now else st.time_of_last_reset
  let change_goal := succ.2.2 || reset
  let torot := if change_goal then inp.now else st.time_of_last_rotation
  { st := { rotation_count := rc, best_rotation_count := succ.2.1,
            time_of_last_reset := tolr, time_of_last_rotation := torot },
    qpos := pose.1, qvel := pose.2, change_goal := change_goal,
    goal_fixed := goalF, angle := angle }

/-! ## Continuous (free) goal sampling (`TransitionLocked`, lines 298-331) -/

/-- One candidate of the two-pairs-of-uniforms construction (lines 300-309):
`q = (sqrt(1-a) sin(2 pi b), sqrt(1-a) cos(2 pi b), sqrt(a) sin(2 pi c),
sqrt(a) cos(2 pi c))` for uniform draws `a, b, c` in `[0,1)`. -/
noncomputable def contSample (a b c : ℝ) : Quat :=
  ⟨Real.sqrt (1 - a) * Real.sin (2 * Real.pi * b),
   Real.sqrt (1 - a) * Real.cos (2 * Real.pi * b),
   Real.sqrt a * Real.sin (2 * Real.pi * c),
   Real.sqrt a * Real.cos (2 * Real.pi * c)⟩

/-- Lines 313-322: the separation in degrees between a candidate goal and
the conjugate of the prior (zero-fixed) goal: multiply, normalize,
sign-flip, then `2*acos(w)*180/pi`. -/
noncomputable def contAngle (q gcoConj : Quat) : ℝ :=
  angleDeg (quatFlip (mju_normalize4 (mju_mulQuat q gcoConj)))

/-- The rejection loop of lines 299-331 over an explicit sequence of
uniform draws: the first candidate at `>= 90` degrees from `gcoConj` is
written as the goal; `none` if the draw list is exhausted first. -/
noncomputable def contLoop (gcoConj : Quat) : List (ℝ × ℝ × ℝ) → Option Quat
  | [] => none
  | d :: rest =>
    if contAngle (contSample d.1 d.2.1 d.2.2) gcoConj ≥ 90 then
      some (contSample d.1 d.2.1 d.2.2)
    else contLoop gcoConj rest

/-! ## Residual evaluator (`Leap::ResidualFn::Residual`, lines 36-118) -/

/-- Line 65: `z_min = -x*tan(theta) + 0.035/cos(theta)` with
`theta = 0.349066` (the source's hard-coded 20-degree palm tilt in
radians). -/
noncomputable def zBandMin (x : ℝ) : ℝ :=
  -x * Real.tan 0.349066 + 0.035 / Real.cos 0.349066

/-- Line 59: clamp of the cube x-coordinate to `[0.08, 0.14]`. -/
noncomputable def cube_x_closest (x : ℝ) : ℝ := max 0.08 (min x 0.14)

/-- Line 60: clamp of the cube y-coordinate to `[-0.02, 0.02]`. -/
noncomputable def cube_y_closest (y : ℝ) : ℝ := max (-0.02) (min y 0.02)

/-- Line 63: the branch condition choosing the tilted z-band. -/
def outsideRect (x y : ℝ) : Prop :=
  x < 0.08 ∨ x > 0.14 ∨ y < -0.02 ∨ y > 0.02

/-- Lines 62-71: clamp of the cube z-coordinate, to the tilted band when
`(x, y)` lies strictly outside the rectangle and to `[-0.015, inf)`
otherwise. -/
noncomputable def cube_z_closest (x y z : ℝ) : ℝ :=
  if outsideRect x y then max (zBandMin x) (min z (zBandMin x + 0.035))
  else max (-0.015) z

/-- Lines 73-76: Euclidean distance between two points of `R^3`. -/
noncomputable def dist3 (px py pz qx qy qz : ℝ) : ℝ :=
  Real.sqrt ((px - qx) ^ 2 + (py - qy) ^ 2 + (pz - qz) ^ 2)

/-- Line 78: the containment residual
`250 * dist((x,y,z), clamped point)`. -/
noncomputable def cubePositionResidual (x y z : ℝ) : ℝ :=
  250 * dist3 (cube_x_closest x) (cube_y_closest y) (cube_z_closest x y z) x y z

/-- The full 3-D allowed region: `(x, y)` in the rectangle and
`z >= -0.015`. -/
def inAllowedRegion (x y z : ℝ) : Prop :=
  0.08 ≤ x ∧ x ≤ 0.14 ∧ -0.02 ≤ y ∧ y ≤ 0.02 ∧ -0.015 ≤ z

/-- `atan2(s, w)` under the assumption `s >= 0`, the only regime in which
`mju_quat2Vel` calls it (its sine term is a square root). -/
noncomputable def atan2nonneg (s w : ℝ) : ℝ :=
  Real.arccos (w / Real.sqrt (w ^ 2 + s ^ 2))

/-- MuJoCo's `mju_quat2Vel` at `dt = 1`: convert a quaternion to an
axis-angle 3-vector, flipping rotations larger than `pi` to the opposite
direction, with `mju_normalize3`'s degenerate-axis default `(1, 0, 0)`. -/
noncomputable def mju_quat2Vel (q : Quat) : Fin 3 → ℝ :=
  let sin_a_2 := Real.sqrt (q.x ^ 2 + q.y ^ 2 + q.z ^ 2)
  let axis : Fin 3 → ℝ :=
    if sin_a_2 < 1e-15 then ![1, 0, 0]
    else if |sin_a_2 - 1| > 1e-15 then ![q.x / sin_a_2, q.y / sin_a_2, q.z / sin_a_2]
    else ![q.x, q.y, q.z]
  let speed0 := 2 * atan2nonneg sin_a_2 q.w
  let speed := if speed0 > Real.pi then speed0 - 2 * Real.pi else speed0
  fun i => axis i * speed

/-- MuJoCo's `mju_subQuat`: the tangent-space difference
`quat2Vel(conj(qb) * qa)`. -/
noncomputable def mju_subQuat (qa qb : Quat) : Fin 3 → ℝ :=
  mju_quat2Vel (mju_mulQuat (mju_negQuat qb) qa)

/-- The named sensor channels read through `SensorByName`. -/
structure SensorData where
  cube_position : Fin 3 → ℝ
  cube_orientation : Quat
  cube_goal_orientation : Quat
  cube_linear_velocity : Fin 3 → ℝ
  cube_angular_velocity : Fin 3 → ℝ

/-- The parts of `mjModel` the residual reads: the actuator count, the
reference keyframe, and the declared user-sensor dimensionality. -/
structure MjModelData where
  nu : ℕ
  key_qpos : ℕ → ℝ
  sensorDim : ℕ

/-- The parts of `mjData` the residual touches. -/
structure MjSimData where
  sensors : SensorData
  actuator_force : ℕ → ℝ
  qpos : ℕ → ℝ
  qvel : ℕ → ℝ

/-- `Leap::ResidualFn::Residual` (lines 36-115): the ordered residual
vector, together with the post-call `mjData` (whose goal-orientation sensor
entries have been renormalized in place by line 85's `mju_normalize4`). -/
noncomputable def leapResidual (m : MjModelData) (d : MjSimData) :
    List ℝ × MjSimData :=
  let goalN := mju_normalize4 d.sensors.cube_goal_orientation
  let res :=
    cubePositionResidual (d.sensors.cube_position 0) (d.sensors.cube_position 1)
        (d.sensors.cube_position 2) ::
      (List.ofFn (mju_subQuat goalN d.sensors.cube_orientation)
        ++ List.ofFn d.sensors.cube_linear_velocity
        ++ List.ofFn d.sensors.cube_angular_velocity
        ++ List.ofFn (fun i : Fin m.nu => d.actuator_force i)
        ++ List.ofFn (fun i : Fin 16 => d.qpos (7 + (i : ℕ)) - m.key_qpos (7 + (i : ℕ)))
        ++ List.ofFn (fun i : Fin 16 => d.qvel (6 + (i : ℕ))))
  (res, { d with sensors := { d.sensors with cube_goal_orientation := goalN } })

/-- Modelled from the spec: `CheckSensorDim` lives in `mjpc/utilities.cc`,
which is not part of the provided source.  Per the spec, a residual count
differing from the engine's declared sensor dimensionality is a fatal
configuration error; the fatal `mju_error` is embedded as `Except.error`. -/
def CheckSensorDim (sensorDim counter : ℕ) : Except String Unit :=
  if counter = sensorDim then Except.ok ()
  else Except.error "mismatch between residual and sensor dimensions"

/-- The residual evaluation followed by the line 117 sanity check: the
result is only delivered when the count validates. -/
noncomputable def leapResidualChecked (m : MjModelData) (d : MjSimData) :
    Except String (List ℝ × MjSimData) :=
  match CheckSensorDim m.sensorDim (leapResidual m d).1.length with
  | Except.ok _ => Except.ok (leapResidual m d)
  | Except.error e => Except.error e

/-! ## Lemmas about the latency buffer -/

theorem lagTrim_length_le {α : Type} (L : ℕ) (buf : List α) :
    (lagTrim L buf).length ≤ L := by
  induction buf with
  | nil => simp [lagTrim]
  | cons x xs ih =>
    rw [lagTrim]
    split
    · exact ih
    · omega

theorem lagTrim_of_le {α : Type} {L : ℕ} {buf : List α}
    (h : buf.length ≤ L) : lagTrim L buf = buf := by
  cases buf with
  | nil => simp [lagTrim]
  | cons x xs =>
    rw [lagTrim, if_neg]
    omega

theorem lagStep_not_full {α : Type} {L : ℕ} {buf : List α}
    (h : buf.length < L) (fresh : α) :
    lagStep L buf fresh = (fresh, buf ++ [fresh]) := by
  have ht : lagTrim L buf = buf := lagTrim_of_le h.le
  have h1 : ¬(buf.length ≥ L ∧ 0 < L) := by omega
  have h2 : 0 < L := by omega
  rw [lagStep]
  simp only [ht]
  rw [if_neg h1, if_neg h1, if_pos h2]

theorem lagStep_full {α : Type} {L : ℕ} {buf : List α}
    (hL : 0 < L) (h : buf.length = L) (fresh : α) :
    lagStep L buf fresh = (buf.headD fresh, buf.drop 1 ++ [fresh]) := by
  have ht : lagTrim L buf = buf := lagTrim_of_le h.le
  have h1 : buf.length ≥ L ∧ 0 < L := ⟨by omega, hL⟩
  rw [lagStep]
  simp only [ht]
  rw [if_pos h1, if_pos h1, if_pos hL]

theorem lagStep_zero_eq {α : Type} (buf : List α) (fresh : α) :
    lagStep 0 buf fresh = (fresh, lagTrim 0 buf) := by
  rw [lagStep]
  simp

theorem lagStep_trim {α : Type} (L : ℕ) (buf : List α) (fresh : α) :
    lagStep L buf fresh = lagStep L (lagTrim L buf) fresh := by
  rw [lagStep, lagStep, lagTrim_of_le (lagTrim_length_le L buf)]

theorem lagRun_fill {α : Type} (L : ℕ) :
    ∀ (xs : List α) (b : List α), b.length + xs.length ≤ L →
      lagRun L b xs = (xs, b ++ xs) := by
  intro xs
  induction xs with
  | nil => intro b _; simp [lagRun]
  | cons x xs ih =>
    intro b hb
    have hstep : lagStep L b x = (x, b ++ [x]) :=
      lagStep_not_full (by simp at hb ⊢; omega) x
    have hrest : lagRun L (b ++ [x]) xs = (xs, (b ++ [x]) ++ xs) := by
      apply ih
      simp at hb ⊢
      omega
    rw [lagRun]
    simp only [hstep, hrest]
    simp

theorem lagRun_snoc {α : Type} (L : ℕ) :
    ∀ (ys : List α) (b : List α) (z : α),
      lagRun L b (ys ++ [z]) =
        ((lagRun L b ys).1 ++ [(lagStep L (lagRun L b ys).2 z).1],
         (lagStep L (lagRun L b ys).2 z).2) := by
  intro ys
  induction ys with
  | nil => intro b z; simp [lagRun]
  | cons y ys ih =>
    intro b z
    rw [List.cons_append, lagRun, lagRun]
    simp only [ih]
    rfl

/-- Claim C4 (counterexample): with `lag_steps = 0` the freshly computed
state is *not* enqueued — the buffer stays empty — contradicting the
claim's "the freshly computed state is always enqueued afterward". -/
theorem claim_C4_counterexample :
    (lagStep 0 ([] : List ℕ) 7).2 = [] ∧
      ¬ (7 ∈ (lagStep 0 ([] : List ℕ) 7).2) := by
  constructor
  · rfl
  · decide

/-- Claim C4 (amended): for the latency buffer, (i) with `lag_steps = 0`
the output is the freshly computed state at every step; (ii) with
`lag_steps = k > 0`, starting from an empty buffer, the output at step
`k+1` is the input supplied at step 1 (the buffer pops the oldest entry
whenever it holds at least `k` entries and `k > 0`); (iii) the buffer
length stays at most `lag_steps`, excess old entries being trimmed from the
front; and (iv) the freshly computed state is enqueued afterward whenever
`lag_steps > 0` (with `lag_steps = 0` nothing is ever enqueued). -/
theorem claim_C4_theorem (α : Type) :
    (∀ (buf : List α) (fresh : α), (lagStep 0 buf fresh).1 = fresh) ∧
    (∀ (L : ℕ) (x z : α) (xs : List α), xs.length + 1 = L →
      ((lagRun L [] ((x :: xs) ++ [z])).1).getLast? = some x) ∧
    (∀ (L : ℕ) (buf : List α) (fresh : α),
      ((lagStep L buf fresh).2).length ≤ L) ∧
    (∀ (L : ℕ) (buf : List α) (fresh : α), 0 < L →
      ((lagStep L buf fresh).2).getLast? = some fresh) := by
  refine ⟨?_, ?_, ?_, ?_⟩
  · intro buf fresh
    rw [lagStep_zero_eq]
  · intro L x z xs hlen
    have hL : 0 < L := by omega
    have hfill : lagRun L ([] : List α) (x :: xs) = (x :: xs, x :: xs) := by
      have := lagRun_fill L (x :: xs) [] (by simp; omega)
      simpa using this
    have hfull : lagStep L (x :: xs) z = (x, xs ++ [z]) := by
      have := @lagStep_full α L (x :: xs) hL (by simp; omega) z
      simpa using this
    rw [lagRun_snoc, hfill]
    simp only [hfull]
    exact List.getLast?_concat _
  · intro L buf fresh
    have ht := lagTrim_length_le L buf
    rcases Nat.eq_zero_or_pos L with h0 | hL
    · subst h0
      rw [lagStep_zero_eq]
      exact lagTrim_length_le 0 buf
    · rw [lagStep_trim]
      by_cases hfull : (lagTrim L buf).length ≥ L
      · have heq : (lagTrim L buf).length = L := le_antisymm ht hfull
        rw [lagStep_full hL heq]
        simp
        omega
      · rw [lagStep_not_full (by omega)]
        simp
        omega
  · intro L buf fresh hL
    have ht := lagTrim_length_le L buf
    rw [lagStep_trim]
    by_cases hfull : (lagTrim L buf).length ≥ L
    · rw [lagStep_full hL (le_antisymm ht hfull)]
      exact List.getLast?_concat _
    · rw [lagStep_not_full (by omega)]
      exact List.getLast?_concat _

/-- Claim C4 (witness): the amended theorem applied at concrete inputs —
lag 0 passes a fresh value through, lag 2 delays by two steps, the buffer
stays short, and the fresh value is last in the buffer when lag is
positive. -/
theorem claim_C4_witness :
    (lagStep 0 ([5] : List ℕ) 9).1 = 9 ∧
      ((lagRun 2 ([] : List ℕ) ([4, 6] ++ [8])).1).getLast? = some 4 ∧
      ((lagStep 3 ([1, 2, 3, 4, 5] : List ℕ) 6).2).length ≤ 3 ∧
      ((lagStep 2 ([1] : List ℕ) 9).2).getLast? = some 9 :=
  ⟨(claim_C4_theorem ℕ).1 [5] 9,
   (claim_C4_theorem ℕ).2.1 2 4 8 [6] (by decide),
   (claim_C4_theorem ℕ).2.2.1 3 [1, 2, 3, 4, 5] 6,
   (claim_C4_theorem ℕ).2.2.2 2 [1] 9 (by decide)⟩

/-! ## Velocity estimation, noise walk and discrete sampler theorems -/

/-- Claim C5 (counterexample): on a later call (`first_time_` already
false) with elapsed time `dt = 0 < 1e-6` and a previously stored velocity
estimate of `4` with `alpha = 1/2`, the emitted estimate is
`(1 - alpha) * 4 = 2`, not zero as the claim states: line 461's EMA decay
runs unconditionally. -/
theorem claim_C5_counterexample :
    ((0 : ℚ) - 0 < 1 / 1000000) ∧
      velEmit false 0 0 (1 / 2)
        (fun j => if (j : ℕ) = 23 then 4 else 0)
        (fun _ => 0) (fun _ => 0) (fun _ => 0) 0 = 2 ∧
      (2 : ℚ) ≠ 0 := by
  refine ⟨by norm_num, ?_, by norm_num⟩
  norm_num [velEmit, dsRaw]

/-- Claim C5 (amended): on the first call with the zero-initialized stored
state the emitted velocity estimate is zero; on every later call with
`dt < 1e-6` the raw increment is zero but the EMA decay still runs, so the
emitted estimate is `(1 - alpha) *` (previous stored estimate), with no
division performed; and on every later call with `dt >= 1e-6` each
component satisfies
`filtered[t] = alpha * raw[t] + (1 - alpha) * filtered[t-1]`, where `raw`
is the backward finite difference (translation and joints) or the
quaternion-difference angular velocity (rotation). -/
theorem claim_C5_theorem (first : Bool) (lastTime t alpha : ℚ)
    (lastState : Fin 45 → ℚ) (pos_cube : Fin 3 → ℚ) (quat_cube : Fin 4 → ℚ)
    (s : Fin 45 → ℚ) :
    (first = true → lastState = initLastState →
      ∀ i, velEmit first lastTime t alpha lastState pos_cube quat_cube s i = 0) ∧
    ((first = true ∨ t - lastTime < 1 / 1000000) →
      ∀ i, velEmit first lastTime t alpha lastState pos_cube quat_cube s i =
        (1 - alpha) * lastState ⟨23 + (i : ℕ), by omega⟩) ∧
    (first = false → ¬(t - lastTime < 1 / 1000000) →
      ∀ i, velEmit first lastTime t alpha lastState pos_cube quat_cube s i =
        alpha * rawFD (t - lastTime) lastState pos_cube quat_cube s i +
          (1 - alpha) * lastState ⟨23 + (i : ℕ), by omega⟩) := by
  refine ⟨?_, ?_, ?_⟩
  · intro hf hinit i
    subst hf hinit
    simp [velEmit, dsRaw, initLastState]
  · intro hguard i
    rw [velEmit, dsRaw, if_pos hguard]
    ring
  · intro hf hdt i
    subst hf
    rw [velEmit, dsRaw, if_neg (by simpa using hdt)]

/-- Claim C5 (witness): the amended theorem at a concrete first call with
the zero-initialized state, a later negligible-`dt` call, and a later
normal call. -/
theorem claim_C5_witness :
    (velEmit true 0 1 (1 / 2) initLastState (fun _ => 0) (fun _ => 0)
        (fun _ => 0) 0 = 0) ∧
      (velEmit false 0 0 (1 / 2) (fun _ => 8) (fun _ => 0) (fun _ => 0)
        (fun _ => 0) 0 = (1 - 1 / 2) * 8) ∧
      (velEmit false 0 1 (1 / 2) (fun _ => 8) (fun _ => 0) (fun _ => 0)
        (fun _ => 0) 0 =
        1 / 2 * rawFD (1 - 0) (fun _ => 8) (fun _ => 0) (fun _ => 0)
          (fun _ => 0) 0 + (1 - 1 / 2) * 8) :=
  ⟨(claim_C5_theorem true 0 1 (1 / 2) initLastState (fun _ => 0) (fun _ => 0)
      (fun _ => 0)).1 rfl rfl 0,
   (claim_C5_theorem false 0 0 (1 / 2) (fun _ => 8) (fun _ => 0) (fun _ => 0)
      (fun _ => 0)).2.1 (Or.inr (by norm_num)) 0,
   (claim_C5_theorem false 0 1 (1 / 2) (fun _ => 8) (fun _ => 0) (fun _ => 0)
      (fun _ => 0)).2.2 rfl (by norm_num) 0⟩

/-- Each component of a clamped vector is bounded by the clamp when the
clamp is nonnegative. -/
theorem clamp3_bound {m : ℚ} (hm : 0 ≤ m) (v : Fin 3 → ℚ) (i : Fin 3) :
    |clamp3 m v i| ≤ m := by
  simp only [clamp3]
  split_ifs with h1 h2
  · rw [abs_of_nonneg hm]
  · rw [abs_neg, abs_of_nonneg hm]
  · rw [abs_le]
    exact ⟨by linarith, by linarith⟩

/-- The random-walk clamp invariant is preserved by any number of steps. -/
theorem noiseWalk_bound {m : ℚ} (hm : 0 ≤ m) :
    ∀ (ds : List (Fin 3 → ℚ)) (n : Fin 3 → ℚ), (∀ i, |n i| ≤ m) →
      ∀ i, |noiseWalk m n ds i| ≤ m := by
  intro ds
  induction ds with
  | nil => intro n hn i; exact hn i
  | cons d ds ih =>
    intro n _ i
    rw [noiseWalk]
    exact ih _ (fun j => clamp3_bound hm _ j) i

/-- Claim C6: for every number of pipeline steps and every sequence of
Gaussian increments, each component of the orientation-noise and
position-noise random walks has absolute value at most its configured
maximum after every call, provided the maxima are nonnegative and the
components start within bounds.  (For the position walk the per-axis bias
is part of the increment.) -/
theorem claim_C6_theorem (mq mp : ℚ) (nq np : Fin 3 → ℚ)
    (hmq : 0 ≤ mq) (hmp : 0 ≤ mp)
    (hnq : ∀ i, |nq i| ≤ mq) (hnp : ∀ i, |np i| ≤ mp)
    (dvs dps : List (Fin 3 → ℚ)) :
    (∀ i, |noiseWalk mq nq dvs i| ≤ mq) ∧
      (∀ i, |noiseWalk mp np dps i| ≤ mp) :=
  ⟨noiseWalk_bound hmq dvs nq hnq, noiseWalk_bound hmp dps np hnp⟩

/-- Claim C6 (witness): the bound at concrete walks — a large increment is
clamped to the configured maxima `1/20` and `1/10`. -/
theorem claim_C6_witness :
    (∀ i, |noiseWalk (1 / 20) (fun _ => 0) [fun _ => 3, fun _ => -7] i| ≤ 1 / 20) ∧
      (∀ i, |noiseWalk (1 / 10) (fun _ => 0) [fun _ => 5] i| ≤ 1 / 10) :=
  claim_C6_theorem (1 / 20) (1 / 10) (fun _ => 0) (fun _ => 0)
    (by norm_num) (by norm_num)
    (fun i => by norm_num) (fun i => by norm_num)
    [fun _ => 3, fun _ => -7] [fun _ => 5]

/-- Claim C8: whenever the discrete (axis-aligned) resampling loop
terminates, the accepted `(face, spin)` pair differs from the immediately
previous stored pair, for every sequence of uniform draws. -/
theorem claim_C8_theorem (old1 old2 : ℤ) (draws : List (ℤ × ℤ)) (r : ℤ × ℤ)
    (h : discreteSampleLoop old1 old2 draws = some r) :
    ¬(r.1 = old1 ∧ r.2 = old2) := by
  induction draws with
  | nil => exact absurd h (by simp [discreteSampleLoop])
  | cons d rest ih =>
    rw [discreteSampleLoop] at h
    by_cases hd : d.1 = old1 ∧ d.2 = old2
    · rw [if_pos hd] at h
      exact ih h
    · rw [if_neg hd] at h
      cases h
      exact hd

/-- Claim C8 (witness): the loop skips the repeated pair `(2, 3)` and
accepts `(2, 0)`, which differs from the stored pair. -/
theorem claim_C8_witness : ¬((2 : ℤ) = 2 ∧ (0 : ℤ) = 3) :=
  claim_C8_theorem 2 3 [(2, 3), (2, 0)] (2, 0) (by decide)

/-! ## Containment residual: claim C1 -/

/-- Independent clamping to `[a, b]` is the identity exactly on `[a, b]`. -/
theorem clamp_eq_self_iff {a b x : ℝ} (hab : a ≤ b) :
    max a (min x b) = x ↔ a ≤ x ∧ x ≤ b := by
  constructor
  · intro h
    refine ⟨?_, ?_⟩
    · calc a ≤ max a (min x b) := le_max_left _ _
        _ = x := h
    · have hle : max a (min x b) ≤ max a b :=
        max_le_max le_rfl (min_le_right _ _)
      rw [h, max_eq_right hab] at hle
      exact hle
  · rintro ⟨h1, h2⟩
    rw [min_eq_left h2, max_eq_right h1]

/-- The Euclidean distance vanishes exactly when the points coincide. -/
theorem dist3_eq_zero_iff (px py pz qx qy qz : ℝ) :
    dist3 px py pz qx qy qz = 0 ↔ px = qx ∧ py = qy ∧ pz = qz := by
  rw [dist3, Real.sqrt_eq_zero (by positivity)]
  constructor
  · intro h
    have h1 : (px - qx) ^ 2 = 0 := by
      nlinarith [sq_nonneg (px - qx), sq_nonneg (py - qy), sq_nonneg (pz - qz)]
    have h2 : (py - qy) ^ 2 = 0 := by
      nlinarith [sq_nonneg (px - qx), sq_nonneg (py - qy), sq_nonneg (pz - qz)]
    have h3 : (pz - qz) ^ 2 = 0 := by
      nlinarith [sq_nonneg (px - qx), sq_nonneg (py - qy), sq_nonneg (pz - qz)]
    refine ⟨?_, ?_, ?_⟩
    · have := sq_eq_zero_iff.mp h1
      linarith
    · have := sq_eq_zero_iff.mp h2
      linarith
    · have := sq_eq_zero_iff.mp h3
      linarith
  · rintro ⟨rfl, rfl, rfl⟩
    ring

/-- Claim C1: the containment residual is `250` times the Euclidean
distance to the independently clamped nearest point (with the tilted
z-band used strictly outside the rectangle); it vanishes on the allowed
region, is never negative, and is zero exactly on the allowed region.  The
first residual entry is this value.  (The source represents the 20-degree
tilt as the literal `0.349066` radians.) -/
theorem claim_C1_theorem (x y z : ℝ) :
    0 ≤ cubePositionResidual x y z ∧
    cubePositionResidual x y z =
      250 * dist3 (cube_x_closest x) (cube_y_closest y) (cube_z_closest x y z)
        x y z ∧
    (inAllowedRegion x y z → cubePositionResidual x y z = 0) ∧
    (cubePositionResidual x y z = 0 ↔ inAllowedRegion x y z) ∧
    (∀ (m : MjModelData) (d : MjSimData),
      (leapResidual m d).1.head? = some (cubePositionResidual
        (d.sensors.cube_position 0) (d.sensors.cube_position 1)
        (d.sensors.cube_position 2))) := by
  have hiff : cubePositionResidual x y z = 0 ↔ inAllowedRegion x y z := by
    rw [cubePositionResidual]
    rw [mul_eq_zero]
    constructor
    · rintro (h250 | hd)
      · norm_num at h250
      · rw [dist3_eq_zero_iff] at hd
        obtain ⟨hx, hy, hz⟩ := hd
        rw [cube_x_closest] at hx
        rw [cube_y_closest] at hy
        have hxb := (clamp_eq_self_iff (by norm_num)).mp hx
        have hyb := (clamp_eq_self_iff (by norm_num)).mp hy
        have hrect : ¬ outsideRect x y := by
          rw [outsideRect]
          push_neg
          exact ⟨hxb.1, hxb.2, hyb.1, hyb.2⟩
        rw [cube_z_closest, if_neg hrect] at hz
        exact ⟨hxb.1, hxb.2, hyb.1, hyb.2, max_eq_right_iff.mp hz⟩
    · rintro ⟨h1, h2, h3, h4, h5⟩
      right
      have hx : cube_x_closest x = x := by
        rw [cube_x_closest]
        exact (clamp_eq_self_iff (by norm_num)).mpr ⟨h1, h2⟩
      have hy : cube_y_closest y = y := by
        rw [cube_y_closest]
        exact (clamp_eq_self_iff (by norm_num)).mpr ⟨h3, h4⟩
      have hrect : ¬ outsideRect x y := by
        rw [outsideRect]
        push_neg
        exact ⟨h1, h2, h3, h4⟩
      have hz : cube_z_closest x y z = z := by
        rw [cube_z_closest, if_neg hrect]
        exact max_eq_right h5
      rw [dist3_eq_zero_iff]
      exact ⟨hx, hy, hz⟩
  refine ⟨?_, rfl, hiff.mpr, hiff, fun m d => rfl⟩
  rw [cubePositionResidual]
  exact mul_nonneg (by norm_num) (Real.sqrt_nonneg _)

/-- Claim C1 (witness): at the interior point `(0.1, 0, 0)` the residual
evaluates to `0`. -/
theorem claim_C1_witness :
    inAllowedRegion 0.1 0 0 ∧ cubePositionResidual 0.1 0 0 = 0 := by
  have hreg : inAllowedRegion 0.1 0 0 := by
    rw [inAllowedRegion]
    norm_num
  exact ⟨hreg, (claim_C1_theorem 0.1 0 0).2.2.1 hreg⟩

/-! ## Quaternion helper lemmas -/

/-- `mju_normalize4` leaves an exactly-unit quaternion untouched. -/
theorem mju_normalize4_of_unit {q : Quat} (h : q.normSq = 1) :
    mju_normalize4 q = q := by
  rw [mju_normalize4, h, Real.sqrt_one]
  rw [if_neg (by norm_num), if_neg (by norm_num)]

theorem quatId_normSq : Quat.normSq ⟨1, 0, 0, 0⟩ = 1 := by
  rw [Quat.normSq]
  norm_num

theorem mju_negQuat_id : mju_negQuat ⟨1, 0, 0, 0⟩ = ⟨1, 0, 0, 0⟩ := by
  rw [mju_negQuat]
  norm_num

theorem mju_mulQuat_id_id :
    mju_mulQuat ⟨1, 0, 0, 0⟩ ⟨1, 0, 0, 0⟩ = ⟨1, 0, 0, 0⟩ := by
  rw [mju_mulQuat]
  norm_num

theorem goalZeroFix_id : goalZeroFix ⟨1, 0, 0, 0⟩ = ⟨1, 0, 0, 0⟩ := by
  rw [goalZeroFix, if_neg]
  intro h
  exact one_ne_zero h.1

theorem quatFlip_id : quatFlip ⟨1, 0, 0, 0⟩ = ⟨1, 0, 0, 0⟩ := by
  rw [quatFlip, if_neg]
  norm_num

theorem angleDeg_id : angleDeg ⟨1, 0, 0, 0⟩ = 0 := by
  rw [angleDeg]
  norm_num [Real.arccos_one]

/-- The angular error between identical identity orientations is zero. -/
theorem transAngle_id : transAngle ⟨1, 0, 0, 0⟩ ⟨1, 0, 0, 0⟩ = 0 := by
  rw [transAngle, goalZeroFix_id, mju_negQuat_id, mju_mulQuat_id_id,
    mju_normalize4_of_unit quatId_normSq, quatFlip_id, angleDeg_id]

/-! ## Transition success check: claim C2 -/

/-- Claim C2: on a transition step the angular error is
`2*acos(w)*180/pi` degrees of the sign-flipped, normalized product of the
current orientation with the conjugate of the (zero-fixed) goal; the
threshold is `11.4592` degrees in axis-aligned mode and `22.9183`
otherwise; and whenever the error is strictly below the threshold the
success block increments `rotation_count`, sets `best_rotation_count` to
the maximum of itself and the new count, and requests a goal change. -/
theorem claim_C2_theorem (cube goal : Quat) (axis : Bool) (rc best : ℤ) :
    transAngle cube goal =
      2 * Real.arccos (quatFlip (mju_normalize4
        (mju_mulQuat cube (mju_negQuat (goalZeroFix goal))))).w * 180 /
        Real.pi ∧
    angleThresh true = 11.4592 ∧ angleThresh false = 22.9183 ∧
    (transAngle cube goal < angleThresh axis →
      successStep axis (transAngle cube goal) rc best =
        (rc + 1, max best (rc + 1), true)) ∧
    (∀ (st : TransSt) (qpos qvel : ℕ → ℝ) (inp : TransIn),
      (transitionCore st qpos qvel inp).angle =
        transAngle inp.cube_orientation inp.goal_orientation) := by
  refine ⟨rfl, by rw [angleThresh]; norm_num, by rw [angleThresh]; norm_num,
    ?_, fun st qpos qvel inp => rfl⟩
  intro h
  have hmax : (if rc + 1 > best then rc + 1 else best) = max best (rc + 1) := by
    by_cases hgt : rc + 1 > best
    · rw [if_pos hgt, max_eq_right hgt.le]
    · rw [if_neg hgt, max_eq_left (le_of_not_lt hgt)]
  rw [successStep, if_pos h, hmax]

/-- Claim C2 (witness): with coinciding identity orientations the error is
`0`, below the axis-aligned threshold, and counters `(3, 2)` step to
`(4, max 2 4)` with a goal change requested. -/
theorem claim_C2_witness :
    transAngle ⟨1, 0, 0, 0⟩ ⟨1, 0, 0, 0⟩ < angleThresh true ∧
      successStep true (transAngle ⟨1, 0, 0, 0⟩ ⟨1, 0, 0, 0⟩) 3 2 =
        (4, max 2 4, true) := by
  have hlt : transAngle ⟨1, 0, 0, 0⟩ ⟨1, 0, 0, 0⟩ < angleThresh true := by
    rw [transAngle_id, angleThresh]
    norm_num
  exact ⟨hlt,
    (claim_C2_theorem ⟨1, 0, 0, 0⟩ ⟨1, 0, 0, 0⟩ true 3 2).2.2.2.1 hlt⟩

/-! ## Drop/timeout reset: claim C3 -/

/-- Claim C3 (counterexample): a timeout-only transition step (no floor
contact, 100 seconds since the last rotation, the cube body resolved,
`qpos` differing from the keyframe) leaves the cube pose unchanged at `5`
instead of resetting it to the keyframe value `0` as the claim states:
lines 182-190 reset the pose only on a floor contact. -/
theorem claim_C3_counterexample :
    (100 : ℝ) - 0 > 80 ∧
      onFloor [] 1 2 = false ∧
      ¬((0 : ℤ) = -1) ∧
      (transitionCore ⟨0, 0, 0, 0⟩ (fun _ => 5) (fun _ => 0)
        ⟨⟨1, 0, 0, 0⟩, ⟨1, 0, 0, 0⟩, true, [], 1, 2, 0, 0, 0, fun _ => 0,
          100⟩).qpos 0 = 5 ∧
      (fun _ : ℕ => (0 : ℝ)) 0 = 0 ∧ (5 : ℝ) ≠ 0 := by
  refine ⟨by norm_num, rfl, by norm_num, ?_, rfl, by norm_num⟩
  simp [transitionCore, onFloor]

/-- Claim C3 (amended): on every transition step with a cube-floor contact
or more than 80 seconds since the last rotation, `rotation_count` is reset
to `0`, the last-reset timestamp is updated to the current time, and a
goal change is forced; the cube's free-joint pose is reset to the
reference keyframe and its 6 velocity components zeroed only when a floor
contact is present (a no-op when the cube body cannot be resolved) — on a
timeout without contact the cube state is left unchanged. -/
theorem claim_C3_theorem (st : TransSt) (qpos qvel : ℕ → ℝ) (inp : TransIn)
    (h : onFloor inp.contacts inp.cube_geom inp.floor_geom = true ∨
      inp.now - st.time_of_last_rotation > 80) :
    (transitionCore st qpos qvel inp).st.rotation_count = 0 ∧
    (transitionCore st qpos qvel inp).st.time_of_last_reset = inp.now ∧
    (transitionCore st qpos qvel inp).change_goal = true ∧
    (onFloor inp.contacts inp.cube_geom inp.floor_geom = false →
      (transitionCore st qpos qvel inp).qpos = qpos ∧
      (transitionCore st qpos qvel inp).qvel = qvel) ∧
    (onFloor inp.contacts inp.cube_geom inp.floor_geom = true →
      ((transitionCore st qpos qvel inp).qpos,
        (transitionCore st qpos qvel inp).qvel) =
        resetCubePose inp qpos qvel) ∧
    (inp.cube_body = -1 → resetCubePose inp qpos qvel = (qpos, qvel)) := by
  have hreset : (onFloor inp.contacts inp.cube_geom inp.floor_geom ||
      decide (inp.now - st.time_of_last_rotation > 80)) = true := by
    rcases h with h | h
    · rw [h, Bool.true_or]
    · rw [decide_eq_true h, Bool.or_true]
  refine ⟨?_, ?_, ?_, ?_, ?_, ?_⟩
  · simp only [transitionCore, hreset, if_true]
  · simp only [transitionCore, hreset, if_true]
  · simp only [transitionCore, hreset, Bool.or_true]
  · intro hf
    refine ⟨?_, ?_⟩ <;> simp [transitionCore, hf]
  · intro hf
    simp only [transitionCore, hf, if_true]
  · intro hb
    rw [resetCubePose, if_pos hb]

/-- Claim C3 (witness): the amended theorem at a concrete dropped-cube
step — contact between geoms `1` (cube) and `2` (floor), counters and pose
reset accordingly. -/
theorem claim_C3_witness :
    (transitionCore ⟨7, 9, 0, 0⟩ (fun _ => 5) (fun _ => 3)
      ⟨⟨1, 0, 0, 0⟩, ⟨1, 0, 0, 0⟩, true, [⟨1, 2⟩], 1, 2, 0, 0, 0,
        fun _ => 0, 100⟩).st.rotation_count = 0 ∧
    (transitionCore ⟨7, 9, 0, 0⟩ (fun _ => 5) (fun _ => 3)
      ⟨⟨1, 0, 0, 0⟩, ⟨1, 0, 0, 0⟩, true, [⟨1, 2⟩], 1, 2, 0, 0, 0,
        fun _ => 0, 100⟩).st.time_of_last_reset = 100 := by
  have h := claim_C3_theorem ⟨7, 9, 0, 0⟩ (fun _ => 5) (fun _ => 3)
    ⟨⟨1, 0, 0, 0⟩, ⟨1, 0, 0, 0⟩, true, [⟨1, 2⟩], 1, 2, 0, 0, 0,
      fun _ => 0, 100⟩ (Or.inl rfl)
  exact ⟨h.1, h.2.1⟩

/-! ## Continuous goal sampling: claim C7 -/

/-- Every candidate of the two-uniforms construction is exactly unit when
the first draw lies in `[0, 1]`. -/
theorem contSample_normSq {a : ℝ} (b c : ℝ) (h0 : 0 ≤ a) (h1 : a ≤ 1) :
    (contSample a b c).normSq = 1 := by
  rw [contSample, Quat.normSq]
  have hs1 : Real.sqrt (1 - a) ^ 2 = 1 - a := Real.sq_sqrt (by linarith)
  have hs2 : Real.sqrt a ^ 2 = a := Real.sq_sqrt h0
  linear_combination Real.sqrt (1 - a) ^ 2 *
      Real.sin_sq_add_cos_sq (2 * Real.pi * b) +
    Real.sqrt a ^ 2 * Real.sin_sq_add_cos_sq (2 * Real.pi * c) + hs1 + hs2

/-- Claim C7: whenever the continuous rejection loop terminates on a
sequence of draws with first components in `[0, 1]`, the quaternion it
writes is exactly unit and its angular separation (degrees, computed as in
the source) from the conjugate of the prior zero-fixed goal is at least
`90`. -/
theorem claim_C7_theorem (gcoConj : Quat) (draws : List (ℝ × ℝ × ℝ))
    (q : Quat) (hdraws : ∀ d ∈ draws, 0 ≤ d.1 ∧ d.1 ≤ 1)
    (h : contLoop gcoConj draws = some q) :
    q.normSq = 1 ∧ contAngle q gcoConj ≥ 90 := by
  induction draws with
  | nil => exact absurd h (by rw [contLoop]; exact Option.noConfusion)
  | cons d rest ih =>
    rw [contLoop] at h
    by_cases hacc : contAngle (contSample d.1 d.2.1 d.2.2) gcoConj ≥ 90
    · rw [if_pos hacc] at h
      cases h
      have hd := hdraws d (List.mem_cons_self d rest)
      exact ⟨contSample_normSq d.2.1 d.2.2 hd.1 hd.2, hacc⟩
    · rw [if_neg hacc] at h
      exact ih (fun e he => hdraws e (List.mem_cons_of_mem _ he)) h

theorem contSample_one : contSample 1 0 0 = ⟨0, 0, 0, 1⟩ := by
  rw [contSample]
  norm_num

theorem quatK_normSq : Quat.normSq ⟨0, 0, 0, 1⟩ = 1 := by
  rw [Quat.normSq]
  norm_num

theorem contAngle_k_id : contAngle ⟨0, 0, 0, 1⟩ ⟨1, 0, 0, 0⟩ = 180 := by
  have hmul : mju_mulQuat ⟨0, 0, 0, 1⟩ ⟨1, 0, 0, 0⟩ = ⟨0, 0, 0, 1⟩ := by
    rw [mju_mulQuat]
    norm_num
  have hflip : quatFlip ⟨0, 0, 0, 1⟩ = ⟨0, 0, 0, 1⟩ := by
    rw [quatFlip, if_neg (lt_irrefl 0)]
  rw [contAngle, hmul, mju_normalize4_of_unit quatK_normSq, hflip, angleDeg,
    Real.arccos_zero]
  field_simp

/-- Claim C7 (witness): the loop accepting the draw `(1, 0, 0)` against the
identity conjugate produces the unit quaternion `(0, 0, 0, 1)` at `180`
degrees separation. -/
theorem claim_C7_witness :
    Quat.normSq ⟨0, 0, 0, 1⟩ = 1 ∧
      contAngle ⟨0, 0, 0, 1⟩ ⟨1, 0, 0, 0⟩ ≥ 90 :=
  claim_C7_theorem ⟨1, 0, 0, 0⟩ [(1, 0, 0)] ⟨0, 0, 0, 1⟩
    (by
      intro d hd
      rw [List.mem_singleton] at hd
      subst hd
      norm_num)
    (by
      rw [contLoop]
      norm_num [contSample_one, contAngle_k_id])

/-! ## Residual dimension check: claim C9 -/

/-- Claim C9: with the task's 16 actuators the residual evaluator writes
exactly `58 = 1 + 3 + 3 + 3 + 16 + 16 + 16` entries in the specified
order, and the final `CheckSensorDim` validation (modelled from the spec)
delivers the result exactly when the declared sensor dimension is `58`,
failing fatally otherwise instead of emitting a truncated result. -/
theorem claim_C9_theorem (m : MjModelData) (d : MjSimData)
    (hnu : m.nu = 16) :
    (leapResidual m d).1.length = 58 ∧
    (m.sensorDim = 58 →
      leapResidualChecked m d = Except.ok (leapResidual m d)) ∧
    (m.sensorDim ≠ 58 →
      leapResidualChecked m d =
        Except.error "mismatch between residual and sensor dimensions") := by
  have hlen : (leapResidual m d).1.length = 58 := by
    rw [leapResidual]
    simp [hnu]
  refine ⟨hlen, ?_, ?_⟩
  · intro hs
    rw [leapResidualChecked, hlen, CheckSensorDim, hs, if_pos rfl]
  · intro hs
    rw [leapResidualChecked, hlen, CheckSensorDim,
      if_neg (fun hc => hs hc.symm)]

/-- Claim C9 (witness): a concrete 16-actuator model with declared sensor
dimension 58 validates and yields the 58-entry residual. -/
theorem claim_C9_witness :
    (leapResidual ⟨16, fun _ => 0, 58⟩
      ⟨⟨fun _ => 0, ⟨1, 0, 0, 0⟩, ⟨1, 0, 0, 0⟩, fun _ => 0, fun _ => 0⟩,
        fun _ => 0, fun _ => 0, fun _ => 0⟩).1.length = 58 ∧
      leapResidualChecked ⟨16, fun _ => 0, 58⟩
        ⟨⟨fun _ => 0, ⟨1, 0, 0, 0⟩, ⟨1, 0, 0, 0⟩, fun _ => 0, fun _ => 0⟩,
          fun _ => 0, fun _ => 0, fun _ => 0⟩ =
        Except.ok (leapResidual ⟨16, fun _ => 0, 58⟩
          ⟨⟨fun _ => 0, ⟨1, 0, 0, 0⟩, ⟨1, 0, 0, 0⟩, fun _ => 0, fun _ => 0⟩,
            fun _ => 0, fun _ => 0, fun _ => 0⟩) :=
  ⟨(claim_C9_theorem ⟨16, fun _ => 0, 58⟩
      ⟨⟨fun _ => 0, ⟨1, 0, 0, 0⟩, ⟨1, 0, 0, 0⟩, fun _ => 0, fun _ => 0⟩,
        fun _ => 0, fun _ => 0, fun _ => 0⟩ rfl).1,
   ((claim_C9_theorem ⟨16, fun _ => 0, 58⟩
      ⟨⟨fun _ => 0, ⟨1, 0, 0, 0⟩, ⟨1, 0, 0, 0⟩, fun _ => 0, fun _ => 0⟩,
        fun _ => 0, fun _ => 0, fun _ => 0⟩ rfl).2.1) rfl⟩

/-! ## Residual frame effect: claim C10 -/

theorem quat_two_normalize : mju_normalize4 ⟨2, 0, 0, 0⟩ = ⟨1, 0, 0, 0⟩ := by
  have hsq : Quat.normSq ⟨2, 0, 0, 0⟩ = 4 := by
    rw [Quat.normSq]
    norm_num
  have hsqrt : Real.sqrt 4 = 2 := by
    rw [show (4 : ℝ) = 2 ^ 2 by norm_num, Real.sqrt_sq (by norm_num : (0 : ℝ) ≤ 2)]
  rw [mju_normalize4, hsq, hsqrt, if_neg (by norm_num), if_pos (by norm_num)]
  norm_num

/-- Claim C10 (counterexample): evaluating the residual on data whose
goal-orientation sensor holds the non-unit quaternion `(2, 0, 0, 0)`
rewrites that sensor buffer in place to `(1, 0, 0, 0)` — line 85's
`mju_normalize4` is a side effect on `mjData`, contradicting the claim
that all simulation-data state including the goal-orientation sensor
buffer is left unchanged. -/
theorem claim_C10_counterexample :
    (leapResidual ⟨16, fun _ => 0, 58⟩
      ⟨⟨fun _ => 0, ⟨1, 0, 0, 0⟩, ⟨2, 0, 0, 0⟩, fun _ => 0, fun _ => 0⟩,
        fun _ => 0, fun _ => 0, fun _ => 0⟩).2.sensors.cube_goal_orientation =
      ⟨1, 0, 0, 0⟩ ∧
      (⟨2, 0, 0, 0⟩ : Quat) ≠ (⟨1, 0, 0, 0⟩ : Quat) := by
  constructor
  · exact quat_two_normalize
  · intro h
    injection h with hw
    norm_num at hw

/-- Claim C10 (amended): the residual evaluator is a pure function of the
sensed cube state, goal orientation, actuator forces, joint state and
nominal reference, and apart from the output vector it changes exactly one
piece of simulation-data state: the goal-orientation sensor entries are
renormalized in place by `mju_normalize4` (a no-op when they already hold
an exactly unit quaternion); every other model and data field is left
unchanged. -/
theorem claim_C10_theorem (m : MjModelData) (d : MjSimData) :
    (leapResidual m d).2.sensors.cube_goal_orientation =
      mju_normalize4 d.sensors.cube_goal_orientation ∧
    (leapResidual m d).2.sensors.cube_position = d.sensors.cube_position ∧
    (leapResidual m d).2.sensors.cube_orientation =
      d.sensors.cube_orientation ∧
    (leapResidual m d).2.sensors.cube_linear_velocity =
      d.sensors.cube_linear_velocity ∧
    (leapResidual m d).2.sensors.cube_angular_velocity =
      d.sensors.cube_angular_velocity ∧
    (leapResidual m d).2.actuator_force = d.actuator_force ∧
    (leapResidual m d).2.qpos = d.qpos ∧
    (leapResidual m d).2.qvel = d.qvel ∧
    (d.sensors.cube_goal_orientation.normSq = 1 →
      (leapResidual m d).2 = d) := by
  refine ⟨rfl, rfl, rfl, rfl, rfl, rfl, rfl, rfl, ?_⟩
  intro h
  have heq : (leapResidual m d).2 =
      { d with sensors :=
        { d.sensors with cube_goal_orientation :=
            mju_normalize4 d.sensors.cube_goal_orientation } } := rfl
  rw [heq, mju_normalize4_of_unit h]

/-- Claim C10 (witness): with an exactly unit goal quaternion the residual
evaluation leaves the simulation data completely unchanged. -/
theorem claim_C10_witness :
    (leapResidual ⟨16, fun _ => 1, 58⟩
      ⟨⟨fun _ => 2, ⟨1, 0, 0, 0⟩, ⟨0, 0, 0, 1⟩, fun _ => 3, fun _ => 4⟩,
        fun _ => 5, fun _ => 6, fun _ => 7⟩).2 =
      ⟨⟨fun _ => 2, ⟨1, 0, 0, 0⟩, ⟨0, 0, 0, 1⟩, fun _ => 3, fun _ => 4⟩,
        fun _ => 5, fun _ => 6, fun _ => 7⟩ :=
  (claim_C10_theorem ⟨16, fun _ => 1, 58⟩
      ⟨⟨fun _ => 2, ⟨1, 0, 0, 0⟩, ⟨0, 0, 0, 1⟩, fun _ => 3, fun _ => 4⟩,
        fun _ => 5, fun _ => 6, fun _ => 7⟩).2.2.2.2.2.2.2.2 quatK_normSq

end LeapSpec
